import Mathlib

/-
Shallow embedding of the qstra in-memory bloom-filter database server
(crates qstra_prim, qstra_prob, qstra_stor, db, qstra), together with
proofs about the properties stated in the specification.

Rust machine integers are modelled as Nat with explicit reduction
mod 2^64 (usize) where the source uses wrapping arithmetic.  A Rust
computation that can fail is modelled by RResult: ok carries the value,
err models a recoverable io::Error, and panic models a Rust panic
(out-of-bounds slice index, etc.), which aborts the process.
-/

namespace QStra

/-- Outcome of a Rust computation: success, a recoverable io::Error, or a panic. -/
inductive RResult (α : Type) where
  | ok : α → RResult α
  | err : RResult α
  | panic : RResult α
deriving DecidableEq

/-- Status-only outcome, used where the source mutates state in place. -/
inductive RStatus where
  | ok : RStatus
  | err : RStatus
  | panic : RStatus
deriving DecidableEq

/-- Sequencing that propagates err and panic, mirroring the question-mark operator. -/
def RResult.bind {α β : Type} : RResult α → (α → RResult β) → RResult β
  | .ok a, f => f a
  | .err, _ => .err
  | .panic, _ => .panic

@[simp] theorem RResult.bind_ok {α β : Type} (a : α) (f : α → RResult β) :
    RResult.bind (.ok a) f = f a := rfl

@[simp] theorem RResult.bind_err {α β : Type} (f : α → RResult β) :
    RResult.bind .err f = .err := rfl

@[simp] theorem RResult.bind_panic {α β : Type} (f : α → RResult β) :
    RResult.bind .panic f = .panic := rfl

/-- Width of a machine word on the target: USIZE_BITS = 64. -/
def USIZE_BITS : Nat := 64

/-- Modulus of usize arithmetic. -/
def U64 : Nat := 2 ^ 64

/-- Little-endian byte list of the low 64 bits of a number (usize::to_le_bytes). -/
def toLE8 (n : Nat) : List Nat :=
  [n % 256, n / 2 ^ 8 % 256, n / 2 ^ 16 % 256, n / 2 ^ 24 % 256,
   n / 2 ^ 32 % 256, n / 2 ^ 40 % 256, n / 2 ^ 48 % 256, n / 2 ^ 56 % 256]

/-- Value of a little-endian byte list (from_le_bytes, any length). -/
def fromLEBytes (l : List Nat) : Nat :=
  l.foldr (fun b acc => b + 256 * acc) 0

/-! ## BitVec (crates/qstra_prim/src/bv.rs)

The source BitVec holds a vector of machine words and a logical bit size.
Vector indexing in Rust panics when out of range, which the model makes
explicit. -/

/-- Dense bit vector: words is the backing Vec of usize, size the logical bit count. -/
structure BitVec where
  words : List Nat
  size : Nat
deriving DecidableEq

namespace BitVec

/-- Constructor with_capacity: max(1, ceil(size/64)) zeroed words. -/
def with_capacity (size : Nat) : BitVec :=
  { words := List.replicate (max ((size + 63) / 64) 1) 0, size := size }

/-- Index computation get_idxs: error when the bit index reaches the logical size. -/
def get_idxs (bv : BitVec) (i : Nat) : RResult (Nat × Nat) :=
  if i ≥ bv.size then .err
  else .ok (i / USIZE_BITS, i % USIZE_BITS)

/-- Query is_set: word lookup panics when the word index is out of range of the Vec. -/
def is_set (bv : BitVec) (i : Nat) : RResult Bool :=
  RResult.bind (bv.get_idxs i) fun p =>
    match bv.words.get? p.1 with
    | some w => .ok ((1 <<< p.2) &&& w > 0)
    | none => .panic

/-- Mutator set: ors the selected word with the single-bit mask. -/
def set (bv : BitVec) (i : Nat) : RResult BitVec :=
  RResult.bind (bv.get_idxs i) fun p =>
    match bv.words.get? p.1 with
    | some w => .ok { bv with words := bv.words.set p.1 (w ||| (1 <<< p.2)) }
    | none => .panic

/-- Well-formedness from the data model: the words vector covers the logical size. -/
def wf (bv : BitVec) : Prop := bv.size ≤ 64 * bv.words.length

instance (bv : BitVec) : Decidable bv.wf := by
  unfold wf; infer_instance

/-- Pure bit reading used to reason about set and is_set uniformly. -/
def bitTest (bv : BitVec) (j : Nat) : Bool :=
  (bv.words.getD (j / 64) 0).testBit (j % 64)

/-- Result of a successful set, written out explicitly. -/
def setResult (bv : BitVec) (i : Nat) : BitVec :=
  { bv with words := bv.words.set (i / 64) (bv.words.getD (i / 64) 0 ||| (1 <<< (i % 64))) }

end BitVec

/-! ## BloomFilter (crates/qstra_prob/src/bf.rs) -/

/-- Probabilistic set: bits, the number of simulated hash functions, and the bit domain. -/
structure BloomFilter where
  bits : BitVec
  hfn_cnt : Nat
  bit_cnt : Nat
deriving DecidableEq

namespace BloomFilter

/-- Default constructor: 1000 bits, two hash functions. -/
def default : BloomFilter :=
  { bits := BitVec.with_capacity 1000, bit_cnt := 1000, hfn_cnt := 2 }

/-- Constructor new with independent capacity, bit count and hash count. -/
def new (cpty bit_cnt hfn_cnt : Nat) : BloomFilter :=
  { bits := BitVec.with_capacity cpty, bit_cnt := bit_cnt, hfn_cnt := hfn_cnt }

/-- Single step of the djb2 hash: h = ((h << 5) wrapping_add h) wrapping_add b. -/
def hash0Step (h b : Nat) : Nat :=
  (((h <<< 5) % U64 + h) % U64 + b) % U64

/-- Hash function hash0 (djb2), reduced modulo bit_cnt. -/
def hash0 (bf : BloomFilter) (bytes : List Nat) : Nat :=
  (bytes.foldl hash0Step 5381) % bf.bit_cnt

/-- Single step of the sdbm hash: h = ((b wrapping_add (h << 6)) wrapping_add (h << 16)) wrapping_sub h. -/
def hash1Step (h b : Nat) : Nat :=
  (((b + (h <<< 6) % U64) % U64 + (h <<< 16) % U64) % U64 + (U64 - h % U64)) % U64

/-- Hash function hash1 (sdbm), reduced modulo bit_cnt. -/
def hash1 (bf : BloomFilter) (bytes : List Nat) : Nat :=
  (bytes.foldl hash1Step 0) % bf.bit_cnt

/-- Derived Kirsch-Mitzenmacher index for hash number i, with 64-bit wrapping arithmetic. -/
def kmIndex (bf : BloomFilter) (h0 h1 i : Nat) : Nat :=
  ((h0 + (h1 * i) % U64) % U64) % bf.bit_cnt

/-- List of the extension indices set by add for hash numbers 3..=hfn_cnt. -/
def kmIndices (bf : BloomFilter) (h0 h1 : Nat) : List Nat :=
  (List.range' 3 (bf.hfn_cnt - 2)).map (bf.kmIndex h0 h1)

/-- Fold of BitVec.set over a list of indices, as the for loop in add performs. -/
def setAll (bv : BitVec) : List Nat → RResult BitVec
  | [] => .ok bv
  | i :: is => RResult.bind (bv.set i) fun bv1 => setAll bv1 is

/-- Mutator add: set bits hash0 and hash1, then the extension indices when hfn_cnt is at least 3. -/
def add (bf : BloomFilter) (bytes : List Nat) : RResult BloomFilter :=
  RResult.bind (bf.bits.set (bf.hash0 bytes)) fun bits1 =>
  RResult.bind (bits1.set (bf.hash1 bytes)) fun bits2 =>
  if bf.hfn_cnt < 3 then .ok { bf with bits := bits2 }
  else RResult.bind (setAll bits2 (bf.kmIndices (bf.hash0 bytes) (bf.hash1 bytes))) fun bits3 =>
    .ok { bf with bits := bits3 }

/-- Conjunction of is_set over a list of indices, with the early false return of has. -/
def allSet (bv : BitVec) : List Nat → RResult Bool
  | [] => .ok true
  | i :: is => RResult.bind (bv.is_set i) fun b =>
      if b then allSet bv is else .ok false

/-- Query has: every bit probed by add must be set; the source short-circuits
so the second probe is only read when the first one is set. -/
def has (bf : BloomFilter) (bytes : List Nat) : RResult Bool :=
  RResult.bind (bf.bits.is_set (bf.hash0 bytes)) fun b0 =>
  if !b0 then .ok false
  else RResult.bind (bf.bits.is_set (bf.hash1 bytes)) fun b1 =>
  if !b1 then .ok false
  else if bf.hfn_cnt < 3 then .ok true
  else allSet bf.bits (bf.kmIndices (bf.hash0 bytes) (bf.hash1 bytes))

/-- Sequence of add calls, one per element, in order. -/
def addList (bf : BloomFilter) : List (List Nat) → RResult BloomFilter
  | [] => .ok bf
  | x :: xs => RResult.bind (bf.add x) fun bf2 => addList bf2 xs

/-- Invariant of every filter reachable through the command protocol with defaults. -/
def defaultShape (bf : BloomFilter) : Prop :=
  bf.bit_cnt = 1000 ∧ bf.hfn_cnt = 2 ∧ bf.bits.size = 1000 ∧ bf.bits.wf

instance (bf : BloomFilter) : Decidable bf.defaultShape := by
  unfold defaultShape; infer_instance

end BloomFilter

/-- Filter violating the structural invariant assumed implicitly by C7: its bit
vector is empty although bit_cnt is 1, so add cannot set any bit. -/
def undersizedFilter : BloomFilter :=
  { bits := { words := [0], size := 0 }, hfn_cnt := 2, bit_cnt := 1 }

/-! ## Registry (crates/db/src/reg.rs)

The HashMap index of the source is modelled as an association list with unique
keys (add refuses duplicates, and nothing removes entries, so the two
representations have the same get/contains semantics). -/

/-- Association-list lookup standing in for HashMap::get. -/
def assocFind : List (List Nat × Nat) → List Nat → Option Nat
  | [], _ => none
  | p :: ps, id => if p.1 = id then some p.2 else assocFind ps id

/-- Ordered append-only collection with a byte-string index. -/
structure Registry (T : Type) where
  items : List T
  items_index : List (List Nat × Nat)
deriving DecidableEq

namespace Registry

/-- Constructor new_blank. -/
def new_blank (T : Type) : Registry T := { items := [], items_index := [] }

/-- Lookup get_idx through the index map. -/
def get_idx {T : Type} (r : Registry T) (id : List Nat) : Option Nat :=
  assocFind r.items_index id

/-- Accessor get; indexing the items vector panics if the stored index is stale. -/
def get {T : Type} (r : Registry T) (id : List Nat) : RResult (Option T) :=
  match r.get_idx id with
  | some idx =>
      match r.items.get? idx with
      | some x => .ok (some x)
      | none => .panic
  | none => .ok none

/-- Mutator add: duplicate key is a recoverable error, otherwise push and index. -/
def add {T : Type} (r : Registry T) (item : T) (id : List Nat) : RResult (Registry T) :=
  if (assocFind r.items_index id).isSome then .err
  else .ok { items := r.items ++ [item],
             items_index := (id, r.items.length) :: r.items_index }

/-- Accessor count. -/
def count {T : Type} (r : Registry T) : Nat := r.items.length

/-- Functional stand-in for the in-place write through get_mut: replace the item
stored under the looked-up index. -/
def setAt {T : Type} (r : Registry T) (id : List Nat) (t : T) : Registry T :=
  match r.get_idx id with
  | some idx => { r with items := r.items.set idx t }
  | none => r

/-- Mutator clear_state. -/
def clear_state {T : Type} (_r : Registry T) : Registry T :=
  { items := [], items_index := [] }

/-- Index entries all point inside the items vector; this holds for every
registry built through new_blank, add and setAt. -/
def wf {T : Type} (r : Registry T) : Prop :=
  ∀ p ∈ r.items_index, p.2 < r.items.length

instance {T : Type} (r : Registry T) : Decidable r.wf := by
  unfold wf; infer_instance

end Registry

/-! ## BloomFilterStructure and Database -/

/-- Persisted wrapper of a filter: parent database id, own id, and the filter. -/
structure BloomFilterStructure where
  dbid : Nat
  id : Nat
  inner : BloomFilter
deriving DecidableEq

/-- Constructor new_default. -/
def BloomFilterStructure.new_default (id dbid : Nat) : BloomFilterStructure :=
  { dbid := dbid, id := id, inner := BloomFilter.default }

/-- Named bloom-filter namespace. -/
structure Database where
  id : Nat
  bf_registry : Registry BloomFilterStructure
deriving DecidableEq

/-- Constructor Database.new with a blank registry. -/
def Database.new (id : Nat) : Database :=
  { id := id, bf_registry := Registry.new_blank _ }

/-! ## Command responses (crates/qstra/src/cmd.rs) -/

/-- Response status byte. -/
inductive CmdResponseCode where
  | success : CmdResponseCode
  | error : CmdResponseCode
deriving DecidableEq

/-- Response under construction: status plus accumulated value bytes. -/
structure CmdResponseTLV where
  rc : CmdResponseCode
  val : List Nat
deriving DecidableEq

namespace CmdResponseTLV

/-- Constructor new with Success status and empty value. -/
def new : CmdResponseTLV := { rc := .success, val := [] }

/-- Flip the status to Error. -/
def init_error_response (r : CmdResponseTLV) : CmdResponseTLV := { r with rc := .error }

/-- Append one byte to the value field. -/
def append (r : CmdResponseTLV) (x : Nat) : CmdResponseTLV := { r with val := r.val ++ [x] }

end CmdResponseTLV

/-! ## TLV serialization (crates/qstra_stor/src/srl.rs)

Type tags: Ctl = 0, Database = 1, BloomFilterStructure = 2, BitVec = 3; every
other tag byte fails to convert. The value buffers of the source are byte
slices, modelled as lists of Nat. -/

/-- Serialized TLV under construction: type tag and accumulated value bytes. -/
structure SerTLV where
  srl_type : Nat
  val : List Nat
deriving DecidableEq

/-- Byte image of a TLV as written by serialize_into_buf and serialize_sertlv:
one tag byte, eight length bytes little-endian, then the value. -/
def serTLVBytes (t : SerTLV) : List Nat :=
  t.srl_type :: (toLE8 t.val.length ++ t.val)

/-- Decoder DeserTLV::new: checks the 9-byte header, validates the type tag,
reads the value length and slices the value out of the buffer. -/
def DeserTLV.new (buf : List Nat) : RResult (Nat × List Nat) :=
  if buf.length < 9 then .err
  else
    match buf with
    | [] => .err
    | tag :: rest =>
        if tag > 3 then .err
        else
          if buf.length < 9 + fromLEBytes (rest.take 8) then .err
          else .ok (tag, (rest.drop 8).take (fromLEBytes (rest.take 8)))

/-- Primitive decoder deserialize_u8: reads byte zero, panicking on an empty buffer. -/
def deserialize_u8 (buf : List Nat) : RResult Nat :=
  match buf with
  | [] => .panic
  | b :: _ => .ok b

/-- Primitive decoder deserialize_usize: slicing the first eight bytes panics
when the buffer is shorter. -/
def deserialize_usize (buf : List Nat) : RResult Nat :=
  if buf.length < 8 then .panic
  else .ok (fromLEBytes (buf.take 8))

/-- Primitive decoder deserialize_vec_usize: eight-byte chunks, with a
recoverable error on a trailing short chunk (the try_into of a short final
chunk fails with invalid-data). -/
def deserialize_vec_usize : List Nat → RResult (List Nat)
  | [] => .ok []
  | b0 :: b1 :: b2 :: b3 :: b4 :: b5 :: b6 :: b7 :: rest =>
      RResult.bind (deserialize_vec_usize rest) fun ws =>
        .ok (fromLEBytes [b0, b1, b2, b3, b4, b5, b6, b7] :: ws)
  | _ => .err

/-- Byte image of a word slice as written by serialize_slice_usize. -/
def wordsBytes (ws : List Nat) : List Nat :=
  ws.foldr (fun w acc => toLE8 w ++ acc) []

/-- Serializer of BitVec: logical size then the backing words. -/
def BitVec.serialize (bv : BitVec) : SerTLV :=
  { srl_type := 3, val := toLE8 bv.size ++ wordsBytes bv.words }

/-- Deserializer of BitVec: words are decoded from byte eight onward (slicing
panics when the value is shorter than eight bytes), the size from byte zero. -/
def BitVec.deserialize (val : List Nat) : RResult BitVec :=
  if val.length < 8 then .panic
  else
    RResult.bind (deserialize_vec_usize (val.drop 8)) fun ws =>
    RResult.bind (deserialize_usize val) fun sz =>
    .ok { words := ws, size := sz }

/-- Serializer of BloomFilterStructure: id, dbid, hfn_cnt truncated to a byte,
bit_cnt, then the nested BitVec TLV. -/
def BloomFilterStructure.serialize (bfs : BloomFilterStructure) : SerTLV :=
  { srl_type := 2,
    val := bfs.id :: bfs.dbid :: bfs.inner.hfn_cnt % 256 ::
      (toLE8 bfs.inner.bit_cnt ++ serTLVBytes bfs.inner.bits.serialize) }

/-- Deserializer of BloomFilterStructure: slices the nested TLV from byte
eleven (panicking on shorter values), reads bit_cnt from byte three, decodes
the bits, and hard-codes hfn_cnt to 2 ignoring the stored byte. -/
def BloomFilterStructure.deserialize (val : List Nat) : RResult BloomFilterStructure :=
  if val.length < 11 then .panic
  else
    RResult.bind (DeserTLV.new (val.drop 11)) fun tlv =>
    RResult.bind (deserialize_usize (val.drop 3)) fun bc =>
    RResult.bind (BitVec.deserialize tlv.2) fun bits =>
    RResult.bind (deserialize_u8 (val.drop 1)) fun dbid =>
    RResult.bind (deserialize_u8 val) fun id =>
    .ok { dbid := dbid, id := id, inner := { hfn_cnt := 2, bit_cnt := bc, bits := bits } }

/-- Serializer of Database: only the id byte. -/
def Database.serialize (db : Database) : SerTLV :=
  { srl_type := 1, val := [db.id] }

/-- Deserializer of Database: a fresh database with the decoded id and a blank
filter registry. -/
def Database.deserialize (val : List Nat) : RResult Database :=
  RResult.bind (deserialize_u8 val) fun id => .ok (Database.new id)

/-! ## TLV round trip (claim C3) -/

/-- Representability of a BitVec on the wire: every stored quantity fits a
64-bit word and the vector is not absurdly long. -/
def BitVec.serWF (bv : BitVec) : Prop :=
  bv.size < U64 ∧ (∀ w ∈ bv.words, w < U64) ∧ bv.words.length < 2 ^ 32

/-- Representability of a BloomFilterStructure on the wire: byte-sized ids, a
64-bit bit_cnt, and a representable bit vector. -/
def BloomFilterStructure.serWF (bfs : BloomFilterStructure) : Prop :=
  bfs.id < 256 ∧ bfs.dbid < 256 ∧ bfs.inner.bit_cnt < U64 ∧ bfs.inner.bits.serWF

instance (bv : BitVec) : Decidable bv.serWF := by
  unfold BitVec.serWF; infer_instance

instance (bfs : BloomFilterStructure) : Decidable bfs.serWF := by
  unfold BloomFilterStructure.serWF; infer_instance

/-- Byte-string filter wrapper whose hfn_cnt is 3, used to refute the claim
that the TLV round trip preserves every hfn_cnt value. -/
def hfn3Filter : BloomFilterStructure :=
  { dbid := 0, id := 0,
    inner := { bits := BitVec.with_capacity 10, hfn_cnt := 3, bit_cnt := 10 } }

/-! ## Command framing and decoding (crates/qstra/src/cmd.rs)

A command frame is four type bytes, a four-byte little-endian value length and
the value. The nested LV frame is one length byte followed by the value; the
source slices buf[1..=len] after only checking that the buffer has at least
two bytes, so a declared length exceeding the remaining bytes is an
out-of-range slice, i.e. a panic, and a declared length of zero yields an
empty value. -/

/-- Decoder LV::new: buffers of fewer than two bytes are an EOF error (the
wildcard branch); otherwise the declared length is checked only by the slice
itself, so a length reaching past the end panics. -/
def LV.new (buf : List Nat) : RResult (List Nat) :=
  match buf with
  | b0 :: b1 :: rest =>
      if b0 + 1 > (b0 :: b1 :: rest).length then .panic
      else .ok ((b1 :: rest).take b0)
  | _ => .err

/-- Command frame with its four type bytes and value slice. -/
structure CmdTLV where
  cmd_type : List Nat
  val : List Nat
deriving DecidableEq

/-- Decoder CmdTLV::new: at least nine bytes, and the declared value length
must fit in the buffer. -/
def CmdTLV.new (buf : List Nat) : RResult CmdTLV :=
  if buf.length < 9 then .err
  else
    if buf.length < 8 + fromLEBytes ((buf.drop 4).take 4) then .err
    else .ok { cmd_type := buf.take 4,
               val := (buf.drop 8).take (fromLEBytes ((buf.drop 4).take 4)) }

/-- Read operations on the controller. -/
inductive ReadOpCtl where
  | writeData : ReadOpCtl
deriving DecidableEq

/-- Write operations on the controller. -/
inductive WriteOpCtl where
  | walReplay : WriteOpCtl
  | loadData : WriteOpCtl
deriving DecidableEq

/-- Payload of the NewBloomFilter operation. -/
structure WriteOpDatabaseNewBloomFilter where
  bf_id : Nat
deriving DecidableEq

/-- Write operations on a database. -/
inductive WriteOpDatabase where
  | newBloomFilter : WriteOpDatabaseNewBloomFilter → WriteOpDatabase
deriving DecidableEq

/-- Decoded family-2 write command. -/
structure WriteCmdDatabase where
  db_id : Nat
  op : WriteOpDatabase
deriving DecidableEq

/-- Write operations on a bloom filter. -/
inductive WriteOpBloomFilter where
  | add : List Nat → WriteOpBloomFilter
  | addBatch : List Nat → WriteOpBloomFilter
deriving DecidableEq

/-- Decoded family-3 write command. -/
structure WriteCmdBloomFilter where
  db_id : Nat
  bf_id : Nat
  op : WriteOpBloomFilter
deriving DecidableEq

/-- Read operations on a bloom filter. -/
inductive ReadOpBloomFilter where
  | has : List Nat → ReadOpBloomFilter
  | hasBatch : List Nat → ReadOpBloomFilter
deriving DecidableEq

/-- Decoded family-3 read command. -/
structure ReadCmdBloomFilter where
  db_id : Nat
  bf_id : Nat
  op : ReadOpBloomFilter
deriving DecidableEq

/-- Read commands. -/
inductive ReadCmd where
  | bloomFilter : ReadCmdBloomFilter → ReadCmd
  | ctl : ReadOpCtl → ReadCmd
deriving DecidableEq

/-- Write commands. -/
inductive WriteCmd where
  | ctl : WriteOpCtl → WriteCmd
  | database : WriteCmdDatabase → WriteCmd
  | bloomFilter : WriteCmdBloomFilter → WriteCmd
deriving DecidableEq

/-- Decoded commands, split into the read and write sides. -/
inductive Cmd where
  | read : ReadCmd → Cmd
  | write : WriteCmd → Cmd
deriving DecidableEq

/-- Decoder decode_bf_cmd: family-3 payloads need four bytes, then db id,
filter id, and one LV holding the element bytes. -/
def decode_bf_cmd (ct1 : Nat) (val : List Nat) : RResult Cmd :=
  if val.length < 4 then .err
  else
    RResult.bind (LV.new (val.drop 2)) fun lv =>
    match ct1 with
    | 0 => .ok (.write (.bloomFilter
        { db_id := val.getD 0 0, bf_id := val.getD 1 0, op := .add lv }))
    | 1 => .ok (.write (.bloomFilter
        { db_id := val.getD 0 0, bf_id := val.getD 1 0, op := .addBatch lv }))
    | 2 => .ok (.read (.bloomFilter
        { db_id := val.getD 0 0, bf_id := val.getD 1 0, op := .has lv }))
    | 3 => .ok (.read (.bloomFilter
        { db_id := val.getD 0 0, bf_id := val.getD 1 0, op := .hasBatch lv }))
    | _ => .err

/-- Decoder decode_db_cmd: family-2 payloads need three bytes, then db id and
one LV whose first value byte names the new filter; indexing that byte panics
when the LV value is empty. -/
def decode_db_cmd (ct1 : Nat) (val : List Nat) : RResult Cmd :=
  if val.length < 3 then .err
  else
    RResult.bind (LV.new (val.drop 1)) fun lv =>
    match ct1 with
    | 0 =>
        match lv with
        | [] => .panic
        | b :: _ => .ok (.write (.database
            { db_id := val.getD 0 0, op := .newBloomFilter { bf_id := b } }))
    | _ => .err

/-- Decoder decode_ctl_cmd. -/
def decode_ctl_cmd (ct1 : Nat) : RResult Cmd :=
  match ct1 with
  | 0 => .ok (.write (.ctl .walReplay))
  | 1 => .ok (.write (.ctl .loadData))
  | 2 => .ok (.read (.ctl .writeData))
  | _ => .err

/-- Decoder decode_cmd dispatching on the family byte. -/
def decode_cmd (tlv : CmdTLV) : RResult Cmd :=
  match tlv.cmd_type.getD 0 0 with
  | 1 => decode_ctl_cmd (tlv.cmd_type.getD 1 0)
  | 2 => decode_db_cmd (tlv.cmd_type.getD 1 0) tlv.val
  | 3 => decode_bf_cmd (tlv.cmd_type.getD 1 0) tlv.val
  | _ => .err

/-! ## Operation execution (crates/qstra/src/cmd.rs) -/

/-- Token bytes for batch and single has results. -/
def TOKEN_TRUE : Nat := 1

/-- Token byte for a negative has result. -/
def TOKEN_FALSE : Nat := 0

/-- Executor of Has: append one result byte. -/
def hasExecute (elt : List Nat) (bfs : BloomFilterStructure) (resp : CmdResponseTLV) :
    RResult CmdResponseTLV :=
  RResult.bind (bfs.inner.has elt) fun b =>
    .ok (resp.append (if b then TOKEN_TRUE else TOKEN_FALSE))

/-- Executor loop of HasBatch over the remaining payload suffix: a malformed LV
flips the status to Error and stops; every decoded element appends a byte. -/
def hasBatchLoop (bfs : BloomFilterStructure) (elts : List Nat) (resp : CmdResponseTLV) :
    RResult CmdResponseTLV :=
  if h : elts.length = 0 then .ok resp
  else
    match LV.new elts with
    | .err => .ok resp.init_error_response
    | .panic => .panic
    | .ok v =>
        RResult.bind (bfs.inner.has v) fun b =>
          hasBatchLoop bfs (elts.drop (v.length + 1))
            (resp.append (if b then TOKEN_TRUE else TOKEN_FALSE))
termination_by elts.length
decreasing_by
  simp only [List.length_drop]
  omega

/-- Executor of Add on the wrapped filter. -/
def addExecute (elt : List Nat) (bfs : BloomFilterStructure) (resp : CmdResponseTLV) :
    RResult (BloomFilterStructure × CmdResponseTLV) :=
  RResult.bind (bfs.inner.add elt) fun bf2 =>
    .ok ({ bfs with inner := bf2 }, resp)

/-- Executor loop of AddBatch over the remaining payload suffix: a malformed LV
flips the status to Error and stops, keeping the elements added so far. -/
def addBatchLoop (bfs : BloomFilterStructure) (elts : List Nat) (resp : CmdResponseTLV) :
    RResult (BloomFilterStructure × CmdResponseTLV) :=
  if h : elts.length = 0 then .ok (bfs, resp)
  else
    match LV.new elts with
    | .err => .ok (bfs, resp.init_error_response)
    | .panic => .panic
    | .ok v =>
        RResult.bind (bfs.inner.add v) fun bf2 =>
          addBatchLoop { bfs with inner := bf2 } (elts.drop (v.length + 1)) resp
termination_by elts.length
decreasing_by
  simp only [List.length_drop]
  omega

/-- Executor of NewBloomFilter: an existing id flips the status to Error with
no state change, otherwise a filter with the defaults is added under the id. -/
def newBloomFilterExecute (op : WriteOpDatabaseNewBloomFilter) (db : Database)
    (resp : CmdResponseTLV) : RResult (Database × CmdResponseTLV) :=
  RResult.bind (db.bf_registry.get [op.bf_id]) fun o =>
  match o with
  | some _ => .ok (db, resp.init_error_response)
  | none =>
      RResult.bind
        (db.bf_registry.add (BloomFilterStructure.new_default op.bf_id db.id) [op.bf_id])
        fun reg2 => .ok ({ db with bf_registry := reg2 }, resp)

/-! ## Controller and write-ahead log (crates/qstra/src/ctl.rs, wal.rs, srv.rs)

The controller owns the database registry and the WAL. The WAL file is
modelled as the list of logged records (each record is written with a two-byte
little-endian length prefix; all records produced by the server fit in a u16
because a request frame is at most 2048 bytes). The snapshot db file is passed
around as an optional byte list: none models an open or read failure, some []
an empty file. Config and diagnostic logging are out of scope.

Replay dispatches write commands, and a replayed controller command would call
replay or load again; that recursion is bounded by an explicit fuel argument,
with exhausted fuel modelling the unbounded recursion (a crash) of the source.
No record written by the logging discipline can contain a controller command,
so the claims below never consume more than one level of fuel. -/

/-- Root object: current-database cursor, database registry, and the WAL records. -/
structure Ctl where
  curr_db : Nat
  db_registry : Registry Database
  wal : List (List Nat)
deriving DecidableEq

/-- Constructor new_blank. -/
def Ctl.new_blank : Ctl :=
  { curr_db := 0, db_registry := Registry.new_blank Database, wal := [] }

/-- Mutator clear_state: reset the cursor and empty the registry. -/
def Ctl.clear_state (c : Ctl) : Ctl :=
  { c with curr_db := 0, db_registry := c.db_registry.clear_state }

/-- Mutator init: reset the cursor and add the default database with id 0. -/
def Ctl.init (c : Ctl) : RStatus × Ctl :=
  match (c.db_registry.add (Database.new 0) [0] : RResult (Registry Database)) with
  | .ok reg => (.ok, { c with curr_db := 0, db_registry := reg })
  | .err => (.err, { c with curr_db := 0 })
  | .panic => (.panic, { c with curr_db := 0 })

/-- One child TLV applied to the database registry during snapshot load:
Database entries are added under their id, BloomFilterStructure entries are
added to the registry of their named parent when that database exists (and
silently skipped otherwise), all other tags are ignored. -/
def applyEntry (reg : Registry Database) : Nat × List Nat → RResult (Registry Database)
  | (1, v) =>
      RResult.bind (Database.deserialize v) fun db =>
        reg.add db [db.id]
  | (2, v) =>
      RResult.bind (BloomFilterStructure.deserialize v) fun bfs =>
        RResult.bind (reg.get [bfs.dbid]) fun odb =>
        match odb with
        | some db =>
            RResult.bind (db.bf_registry.add bfs [bfs.id]) fun bfreg =>
              .ok (reg.setAt [bfs.dbid] { db with bf_registry := bfreg })
        | none => .ok reg
  | _ => .ok reg

/-- Child-TLV loop of Ctl::deserialize over the remaining buffer suffix,
advancing by the full TLV length each round. -/
def deserLoop (reg : Registry Database) (rest : List Nat) : RResult (Registry Database) :=
  if h : rest.length = 0 then .ok reg
  else
    match DeserTLV.new rest with
    | .err => .err
    | .panic => .panic
    | .ok tv =>
        RResult.bind (applyEntry reg tv) fun reg2 =>
          deserLoop reg2 (rest.drop (9 + tv.2.length))
termination_by rest.length
decreasing_by
  simp only [List.length_drop]
  omega

/-- Deserializer of the snapshot root: byte 9 (the num_dbs byte after the outer
TLV header) is read without a bounds check, so a non-empty buffer of at most
ten bytes panics; a zero there reinitializes; otherwise the child TLVs are
walked from offset 10. -/
def Ctl.deserialize (c : Ctl) (buf : List Nat) : RStatus × Ctl :=
  if buf.length = 0 then c.init
  else
    match buf.get? 9 with
    | none => (.panic, c)
    | some 0 => c.init
    | some _ =>
        match deserLoop c.db_registry (buf.drop 10) with
        | .ok reg => (.ok, { c with db_registry := reg })
        | .err => (.err, c)
        | .panic => (.panic, c)

/-- Resolver plus executor for family-3 read commands: a missing database or
filter flips the status to Error. -/
def handle_read_cmd_bf (cmd : ReadCmdBloomFilter) (c : Ctl) (resp : CmdResponseTLV) :
    RResult CmdResponseTLV :=
  RResult.bind (c.db_registry.get [cmd.db_id]) fun odb =>
  match odb with
  | none => .ok resp.init_error_response
  | some db =>
      RResult.bind (db.bf_registry.get [cmd.bf_id]) fun obf =>
      match obf with
      | none => .ok resp.init_error_response
      | some bf =>
          match cmd.op with
          | .has elt => hasExecute elt bf resp
          | .hasBatch elts => hasBatchLoop bf elts resp

/-- Resolver plus executor for family-3 write commands; the mutation through
get_mut is modelled by writing the updated filter back at the same keys. -/
def handle_write_cmd_bf (cmd : WriteCmdBloomFilter) (c : Ctl) (resp : CmdResponseTLV) :
    RResult (Ctl × CmdResponseTLV) :=
  RResult.bind (c.db_registry.get [cmd.db_id]) fun odb =>
  match odb with
  | none => .ok (c, resp.init_error_response)
  | some db =>
      RResult.bind (db.bf_registry.get [cmd.bf_id]) fun obf =>
      match obf with
      | none => .ok (c, resp.init_error_response)
      | some bf =>
          RResult.bind
            (match cmd.op with
             | .add elt => addExecute elt bf resp
             | .addBatch elts => addBatchLoop bf elts resp) fun p =>
          let db2 := { db with bf_registry := db.bf_registry.setAt [cmd.bf_id] p.1 }
          .ok ({ c with db_registry := c.db_registry.setAt [cmd.db_id] db2 }, p.2)

/-- Resolver plus executor for family-2 write commands. -/
def handle_write_cmd_db (cmd : WriteCmdDatabase) (c : Ctl) (resp : CmdResponseTLV) :
    RResult (Ctl × CmdResponseTLV) :=
  RResult.bind (c.db_registry.get [cmd.db_id]) fun odb =>
  match odb with
  | none => .ok (c, resp.init_error_response)
  | some db =>
      RResult.bind
        (match cmd.op with
         | .newBloomFilter op => newBloomFilterExecute op db resp) fun p =>
      .ok ({ c with db_registry := c.db_registry.setAt [cmd.db_id] p.1 }, p.2)

/-- Handler type for the two controller write operations, abstracted so that
replay and load can be defined before the fuel-indexed knot is tied. -/
def CtlHandler : Type := WriteOpCtl → Ctl → RStatus × Ctl

/-- Dispatcher dispatch_write_cmd with an abstract controller handler. -/
def dispatch_write_cmd_with (hctl : CtlHandler) (cmd : WriteCmd) (c : Ctl)
    (resp : CmdResponseTLV) : RResult (Ctl × CmdResponseTLV) :=
  match cmd with
  | .ctl op =>
      match hctl op c with
      | (.ok, c2) => .ok (c2, resp)
      | (.err, _) => .err
      | (.panic, _) => .panic
  | .database cmd_db => handle_write_cmd_db cmd_db c resp
  | .bloomFilter cmd_bf => handle_write_cmd_bf cmd_bf c resp

/-- Dispatcher dispatch_read_cmd; WriteData serializes the controller to the
snapshot file, which leaves the in-memory state unchanged. -/
def dispatch_read_cmd (cmd : ReadCmd) (c : Ctl) (resp : CmdResponseTLV) :
    RResult CmdResponseTLV :=
  match cmd with
  | .bloomFilter cb => handle_read_cmd_bf cb c resp
  | .ctl .writeData => .ok resp

/-- Replay loop over the remaining WAL records: a zero length prefix is
skipped, each record is framed as a CmdTLV and decoded, write commands are
dispatched with a fresh discarded response, read commands are ignored, and any
decode or dispatch failure aborts the replay. -/
def replayRecords (hctl : CtlHandler) : List (List Nat) → Ctl → RStatus × Ctl
  | [], c => (.ok, c)
  | r :: rs, c =>
      if r.length = 0 then replayRecords hctl rs c
      else
        match CmdTLV.new r with
        | .err => (.err, c)
        | .panic => (.panic, c)
        | .ok tlv =>
            match decode_cmd tlv with
            | .err => (.err, c)
            | .panic => (.panic, c)
            | .ok (.read _) => replayRecords hctl rs c
            | .ok (.write w) =>
                match dispatch_write_cmd_with hctl w c CmdResponseTLV.new with
                | .ok p => replayRecords hctl rs p.1
                | .err => (.err, c)
                | .panic => (.panic, c)

/-- Replay of the whole log from position zero. -/
def replayWith (hctl : CtlHandler) (c : Ctl) : RStatus × Ctl :=
  replayRecords hctl c.wal c

/-- Loader load_from_storage with an abstract controller handler: a read
failure reinitializes and reports the error, an empty file reinitializes, and
otherwise the state is cleared, the snapshot deserialized and the WAL
replayed. -/
def loadWith (hctl : CtlHandler) (file : Option (List Nat)) (c : Ctl) : RStatus × Ctl :=
  match file with
  | none =>
      match c.init with
      | (.panic, c2) => (.panic, c2)
      | (_, c2) => (.err, c2)
  | some [] => c.init
  | some buf =>
      match (c.clear_state).deserialize buf with
      | (.ok, c2) => replayWith hctl c2
      | (s, c2) => (s, c2)

/-- Fuel-indexed handler of the controller write operations: WalReplay runs
replay, LoadData runs load_from_storage, each nested controller command
consuming one unit of fuel. -/
def ctlHandler (file : Option (List Nat)) : Nat → CtlHandler
  | 0 => fun _ c => (.panic, c)
  | fuel + 1 => fun op c =>
      match op with
      | .walReplay => replayWith (ctlHandler file fuel) c
      | .loadData => loadWith (ctlHandler file fuel) file c

/-- Replay entry point WriteAheadLog::replay. -/
def WriteAheadLog.replay (fuel : Nat) (file : Option (List Nat)) (c : Ctl) : RStatus × Ctl :=
  replayWith (ctlHandler file fuel) c

/-- Loader entry point Ctl::load_from_storage. -/
def Ctl.load_from_storage (fuel : Nat) (file : Option (List Nat)) (c : Ctl) : RStatus × Ctl :=
  loadWith (ctlHandler file fuel) file c

/-- Post-processor of the connection loop: after a Success response to a
family-2 or family-3 write command, the value field of the original frame is
appended to the WAL; everything else is not logged. -/
def postprocess_cmd (cmd : Cmd) (resp : CmdResponseTLV) (tlvVal : List Nat) (c : Ctl) : Ctl :=
  match resp.rc with
  | .error => c
  | .success =>
      match cmd with
      | .write (.bloomFilter _) => { c with wal := c.wal ++ [tlvVal] }
      | .write (.database _) => { c with wal := c.wal ++ [tlvVal] }
      | _ => c

/-- One request of the connection loop: frame, decode, dispatch against the
shared controller, respond (response bytes are the returned value), then
post-process. Frame or decode errors abort the connection before any response
or log write. -/
def serverStep (fuel : Nat) (file : Option (List Nat)) (c : Ctl) (frame : List Nat) :
    RResult (Ctl × CmdResponseTLV) :=
  RResult.bind (CmdTLV.new frame) fun tlv =>
  RResult.bind (decode_cmd tlv) fun cmd =>
  match cmd with
  | .read rc =>
      RResult.bind (dispatch_read_cmd rc c CmdResponseTLV.new) fun resp =>
        .ok (postprocess_cmd cmd resp tlv.val c, resp)
  | .write wc =>
      RResult.bind (dispatch_write_cmd_with (ctlHandler file fuel) wc c CmdResponseTLV.new)
        fun p => .ok (postprocess_cmd cmd p.2 tlv.val p.1, p.2)

/-! ## Claims C2, C6, C10 -/

/-- Controller state with exactly the default database, as produced by init on
a blank controller: the reachable S0 of a fresh server without a snapshot. -/
def c2S0 : Ctl :=
  { curr_db := 0,
    db_registry := { items := [Database.new 0], items_index := [([0], 0)] },
    wal := [] }

/-- Frame of NewBloomFilter(db 0, bf 1), the single write command of the C2
failing input. -/
def c2Frame : List Nat := [2, 0, 255, 255, 3, 0, 0, 0, 0, 1, 1]

/-- Controller state after executing c2Frame against c2S0: database 0 holds
filter 1 and the WAL holds the three-byte value field of the frame. -/
def c2S1 : Ctl :=
  { curr_db := 0,
    db_registry :=
      { items := [{ id := 0,
                    bf_registry := { items := [BloomFilterStructure.new_default 1 0],
                                     items_index := [([1], 0)] } }],
        items_index := [([0], 0)] },
    wal := [[0, 1, 1]] }

/-- Spec-modelled layered snapshot decoding, first stage: split the child-TLV
region into a list of (tag, value) frames, failing on any malformed TLV
(section 4.10 of the specification describes the snapshot as a sequence of
child TLVs). -/
def parseTLVs (buf : List Nat) : Option (List (Nat × List Nat)) :=
  if h : buf.length = 0 then some []
  else
    match DeserTLV.new buf with
    | .ok tv => (parseTLVs (buf.drop (9 + tv.2.length))).map (fun ts => tv :: ts)
    | _ => none
termination_by buf.length
decreasing_by
  simp only [List.length_drop]
  omega

/-- Spec-modelled layered snapshot decoding, second stage: apply the parsed
entries in order to a registry (Database entries populate it, filter entries
are inserted into their named parent, other tags are ignored). -/
def applyAllEntries (reg : Registry Database) : List (Nat × List Nat) → RResult (Registry Database)
  | [] => .ok reg
  | e :: es =>
      RResult.bind (applyEntry reg e) fun reg2 => applyAllEntries reg2 es

/-- Registry holding exactly the default database with id 0, as init builds
on a blank controller. -/
def defaultRegistry : Registry Database :=
  { items := [Database.new 0], items_index := [([0], 0)] }

/-- Controller state holding only a database with id 1, reachable by loading a
snapshot whose single child TLV is Database(1). -/
def c6Cex : Ctl :=
  { curr_db := 0,
    db_registry := { items := [Database.new 1], items_index := [([1], 0)] },
    wal := [] }

/-! ## Theorems -/

theorem toLE8_length (n : Nat) : (toLE8 n).length = 8 := rfl

theorem fromLEBytes_toLE8 (n : Nat) (h : n < U64) : fromLEBytes (toLE8 n) = n := by
  simp only [toLE8, fromLEBytes, List.foldr_cons, List.foldr_nil]
  simp only [U64] at h
  omega

namespace BitVec

theorem with_capacity_wf (n : Nat) : (with_capacity n).wf := by
  unfold wf with_capacity
  simp only [List.length_replicate]
  have h1 : (n + 63) / 64 ≤ max ((n + 63) / 64) 1 := le_max_left _ _
  omega

theorem mask_and_pos (w b : Nat) : decide ((1 <<< b) &&& w > 0) = w.testBit b := by
  rw [Nat.one_shiftLeft, Nat.two_pow_and]
  rcases hw : w.testBit b
  · simp
  · simp [Nat.two_pow_pos]

theorem div64_lt {bv : BitVec} (h : bv.wf) {i : Nat} (hi : i < bv.size) :
    i / 64 < bv.words.length := by
  unfold wf at h
  omega

theorem get?_words {bv : BitVec} (h : bv.wf) {i : Nat} (hi : i < bv.size) :
    bv.words.get? (i / 64) = some (bv.words.getD (i / 64) 0) := by
  have hlt := div64_lt h hi
  rw [List.getD_eq_getElem?_getD, List.get?_eq_getElem?, List.getElem?_eq_getElem hlt]
  rfl

theorem is_set_oob (bv : BitVec) {i : Nat} (hi : bv.size ≤ i) : bv.is_set i = .err := by
  unfold is_set get_idxs
  rw [if_pos hi]
  rfl

theorem set_oob (bv : BitVec) {i : Nat} (hi : bv.size ≤ i) : bv.set i = .err := by
  unfold set get_idxs
  rw [if_pos hi]
  rfl

theorem is_set_eq {bv : BitVec} (h : bv.wf) {i : Nat} (hi : i < bv.size) :
    bv.is_set i = .ok (bv.bitTest i) := by
  unfold is_set get_idxs
  rw [if_neg (by omega)]
  simp only [RResult.bind_ok, USIZE_BITS, get?_words h hi]
  unfold bitTest
  rw [mask_and_pos]

theorem set_eq {bv : BitVec} (h : bv.wf) {i : Nat} (hi : i < bv.size) :
    bv.set i = .ok (bv.setResult i) := by
  unfold set get_idxs setResult
  rw [if_neg (by omega)]
  simp only [RResult.bind_ok, USIZE_BITS, get?_words h hi]

@[simp] theorem setResult_size (bv : BitVec) (i : Nat) :
    (bv.setResult i).size = bv.size := rfl

theorem setResult_wf {bv : BitVec} (h : bv.wf) (i : Nat) : (bv.setResult i).wf := by
  simp only [wf, setResult, List.length_set] at h ⊢
  exact h

theorem eq_of_div_mod {i j : Nat} (hd : j / 64 = i / 64) (hm : j % 64 = i % 64) : j = i := by
  omega

theorem bitTest_setResult {bv : BitVec} (h : bv.wf) {i : Nat} (hi : i < bv.size) (j : Nat) :
    (bv.setResult i).bitTest j = (bv.bitTest j || decide (j = i)) := by
  have hlt := div64_lt h hi
  unfold bitTest setResult
  simp only [List.getD_eq_getElem?_getD]
  by_cases hd : j / 64 = i / 64
  · rw [hd, List.getElem?_set_self hlt]
    simp only [Option.getD_some]
    rw [Nat.testBit_or, Nat.one_shiftLeft]
    by_cases hm : j % 64 = i % 64
    · have hji : j = i := eq_of_div_mod hd hm
      rw [hm, Nat.testBit_two_pow_self]
      simp [hji]
    · rw [Nat.testBit_two_pow_of_ne (fun hc => hm hc.symm)]
      have hji : j ≠ i := fun hc => hm (by rw [hc])
      simp [hji]
  · rw [List.getElem?_set_ne (fun hc => hd hc.symm)]
    have hji : j ≠ i := fun hc => hd (by rw [hc])
    simp [hji]

end BitVec

namespace BloomFilter

theorem hash0_lt (bf : BloomFilter) (x : List Nat) (hb : 1 ≤ bf.bit_cnt) :
    bf.hash0 x < bf.bit_cnt := Nat.mod_lt _ (by omega)

theorem hash1_lt (bf : BloomFilter) (x : List Nat) (hb : 1 ≤ bf.bit_cnt) :
    bf.hash1 x < bf.bit_cnt := Nat.mod_lt _ (by omega)

theorem kmIndex_lt (bf : BloomFilter) (h0 h1 i : Nat) (hb : 1 ≤ bf.bit_cnt) :
    bf.kmIndex h0 h1 i < bf.bit_cnt := Nat.mod_lt _ (by omega)

theorem mem_kmIndices (bf : BloomFilter) (h0 h1 j : Nat) :
    j ∈ bf.kmIndices h0 h1 ↔ ∃ i, 3 ≤ i ∧ i ≤ bf.hfn_cnt ∧ j = bf.kmIndex h0 h1 i := by
  unfold kmIndices
  rw [List.mem_map]
  constructor
  · rintro ⟨i, hm, he⟩
    rw [List.mem_range'] at hm
    obtain ⟨k, hk, hik⟩ := hm
    exact ⟨i, by omega, by omega, he.symm⟩
  · rintro ⟨i, h3, hn, he⟩
    exact ⟨i, List.mem_range'.mpr ⟨i - 3, by omega, by omega⟩, he.symm⟩

theorem setAll_ok {bv : BitVec} (hwf : bv.wf) {l : List Nat}
    (hl : ∀ i ∈ l, i < bv.size) :
    ∃ bv2, BloomFilter.setAll bv l = .ok bv2 ∧ bv2.size = bv.size ∧
      bv2.words.length = bv.words.length ∧ bv2.wf ∧
      ∀ j, bv2.bitTest j = true ↔ (bv.bitTest j = true ∨ j ∈ l) := by
  induction l generalizing bv with
  | nil =>
      exact ⟨bv, rfl, rfl, rfl, hwf, by simp⟩
  | cons i is ih =>
      have hi : i < bv.size := hl i (by simp)
      have hset := BitVec.set_eq hwf hi
      have hwf1 : (bv.setResult i).wf := BitVec.setResult_wf hwf i
      have hsz1 : (bv.setResult i).size = bv.size := rfl
      have hlen1 : (bv.setResult i).words.length = bv.words.length := by
        simp [BitVec.setResult, List.length_set]
      obtain ⟨bv2, he, hsz, hlen, hwf2, hbit⟩ :=
        ih hwf1 (fun k hk => by rw [hsz1]; exact hl k (by simp [hk]))
      refine ⟨bv2, ?_, by rw [hsz, hsz1], by rw [hlen, hlen1], hwf2, ?_⟩
      · unfold BloomFilter.setAll
        rw [hset, RResult.bind_ok, he]
      · intro j
        rw [hbit j, BitVec.bitTest_setResult hwf hi j]
        simp only [Bool.or_eq_true, decide_eq_true_eq, List.mem_cons]
        tauto

/-- Shared characterization of add under the structural invariant: it succeeds and
the resulting bit array is the old one with exactly the probe bits switched on. -/
theorem add_chr (bf : BloomFilter) (x : List Nat)
    (hb : 1 ≤ bf.bit_cnt) (hinv : bf.bit_cnt ≤ bf.bits.size) (hwf : bf.bits.wf) :
    ∃ f, bf.add x = .ok f ∧
      f.bit_cnt = bf.bit_cnt ∧ f.hfn_cnt = bf.hfn_cnt ∧
      f.bits.size = bf.bits.size ∧ f.bits.wf ∧
      ∀ j, f.bits.bitTest j = true ↔
        (bf.bits.bitTest j = true ∨ j = bf.hash0 x ∨ j = bf.hash1 x ∨
         ∃ i, 3 ≤ i ∧ i ≤ bf.hfn_cnt ∧ j = bf.kmIndex (bf.hash0 x) (bf.hash1 x) i) := by
  have h0lt : bf.hash0 x < bf.bits.size := lt_of_lt_of_le (hash0_lt bf x hb) hinv
  have h1lt : bf.hash1 x < bf.bits.size := lt_of_lt_of_le (hash1_lt bf x hb) hinv
  have hset0 := BitVec.set_eq hwf h0lt
  have hwfa : (bf.bits.setResult (bf.hash0 x)).wf := BitVec.setResult_wf hwf _
  have h1lta : bf.hash1 x < (bf.bits.setResult (bf.hash0 x)).size := h1lt
  have hset1 := BitVec.set_eq hwfa h1lta
  have hwfb := BitVec.setResult_wf hwfa (bf.hash1 x)
  have hszb : ((bf.bits.setResult (bf.hash0 x)).setResult (bf.hash1 x)).size
      = bf.bits.size := rfl
  have hbitb : ∀ j,
      ((bf.bits.setResult (bf.hash0 x)).setResult (bf.hash1 x)).bitTest j = true ↔
      (bf.bits.bitTest j = true ∨ j = bf.hash0 x ∨ j = bf.hash1 x) := by
    intro j
    rw [BitVec.bitTest_setResult hwfa h1lta j, BitVec.bitTest_setResult hwf h0lt j]
    simp only [Bool.or_eq_true, decide_eq_true_eq, or_assoc]
  by_cases hcnt : bf.hfn_cnt < 3
  · refine ⟨{ bf with bits := (bf.bits.setResult (bf.hash0 x)).setResult (bf.hash1 x) },
      ?_, rfl, rfl, hszb, hwfb, ?_⟩
    · unfold add
      rw [hset0, RResult.bind_ok, hset1, RResult.bind_ok, if_pos hcnt]
    · intro j
      rw [hbitb j]
      constructor
      · rintro (h | h | h)
        · exact Or.inl h
        · exact Or.inr (Or.inl h)
        · exact Or.inr (Or.inr (Or.inl h))
      · rintro (h | h | h | ⟨i, h3, hn, -⟩)
        · exact Or.inl h
        · exact Or.inr (Or.inl h)
        · exact Or.inr (Or.inr h)
        · exact absurd hn (by omega)
  · have hkm : ∀ k ∈ bf.kmIndices (bf.hash0 x) (bf.hash1 x),
        k < ((bf.bits.setResult (bf.hash0 x)).setResult (bf.hash1 x)).size := by
      intro k hk
      rw [mem_kmIndices] at hk
      obtain ⟨i, _, _, he⟩ := hk
      rw [hszb, he]
      exact lt_of_lt_of_le (kmIndex_lt bf _ _ _ hb) hinv
    obtain ⟨bv3, he3, hsz3, _, hwf3, hbit3⟩ := setAll_ok hwfb hkm
    refine ⟨{ bf with bits := bv3 }, ?_, rfl, rfl, by rw [hsz3, hszb], hwf3, ?_⟩
    · unfold add
      rw [hset0, RResult.bind_ok, hset1, RResult.bind_ok, if_neg hcnt, he3, RResult.bind_ok]
    · intro j
      rw [hbit3 j, hbitb j, mem_kmIndices]
      constructor
      · rintro ((h | h | h) | h)
        · exact Or.inl h
        · exact Or.inr (Or.inl h)
        · exact Or.inr (Or.inr (Or.inl h))
        · exact Or.inr (Or.inr (Or.inr h))
      · rintro (h | h | h | h)
        · exact Or.inl (Or.inl h)
        · exact Or.inl (Or.inr (Or.inl h))
        · exact Or.inl (Or.inr (Or.inr h))
        · exact Or.inr h

theorem default_defaultShape : BloomFilter.default.defaultShape := by
  refine ⟨rfl, rfl, rfl, ?_⟩
  exact BitVec.with_capacity_wf 1000

theorem add_defaultShape {bf : BloomFilter} (hP : bf.defaultShape) (x : List Nat) :
    ∃ f, bf.add x = .ok f ∧ f.defaultShape ∧
      f.bits.bitTest (bf.hash0 x) = true ∧ f.bits.bitTest (bf.hash1 x) = true ∧
      ∀ j, bf.bits.bitTest j = true → f.bits.bitTest j = true := by
  obtain ⟨hbc, hhc, hsz, hwf⟩ := hP
  obtain ⟨f, he, h1, h2, h3, h4, h5⟩ :=
    add_chr bf x (by omega) (by omega) hwf
  refine ⟨f, he, ⟨by omega, by omega, by omega, h4⟩, ?_, ?_, ?_⟩
  · rw [h5]
    exact Or.inr (Or.inl rfl)
  · rw [h5]
    exact Or.inr (Or.inr (Or.inl rfl))
  · intro j hj
    rw [h5]
    exact Or.inl hj

theorem hash0_shape {f g : BloomFilter} (hf : f.defaultShape) (hg : g.defaultShape)
    (x : List Nat) : f.hash0 x = g.hash0 x := by
  obtain ⟨hfc, -, -, -⟩ := hf
  obtain ⟨hgc, -, -, -⟩ := hg
  simp [hash0, hfc, hgc]

theorem hash1_shape {f g : BloomFilter} (hf : f.defaultShape) (hg : g.defaultShape)
    (x : List Nat) : f.hash1 x = g.hash1 x := by
  obtain ⟨hfc, -, -, -⟩ := hf
  obtain ⟨hgc, -, -, -⟩ := hg
  simp [hash1, hfc, hgc]

theorem addList_grow {bf : BloomFilter} (hP : bf.defaultShape) (S : List (List Nat)) :
    ∃ f, addList bf S = .ok f ∧ f.defaultShape ∧
      ∀ j, bf.bits.bitTest j = true → f.bits.bitTest j = true := by
  induction S generalizing bf with
  | nil => exact ⟨bf, rfl, hP, fun j h => h⟩
  | cons y ys ih =>
      obtain ⟨bf1, he1, hP1, -, -, hmono⟩ := add_defaultShape hP y
      obtain ⟨f, hef, hPf, hmf⟩ := ih hP1
      refine ⟨f, ?_, hPf, fun j hj => hmf j (hmono j hj)⟩
      simp only [addList, he1, RResult.bind_ok, hef]

theorem addList_mem {bf : BloomFilter} (hP : bf.defaultShape) {S : List (List Nat)}
    {x : List Nat} (hx : x ∈ S) :
    ∃ f, addList bf S = .ok f ∧ f.defaultShape ∧
      f.bits.bitTest (f.hash0 x) = true ∧ f.bits.bitTest (f.hash1 x) = true := by
  induction S generalizing bf with
  | nil => cases hx
  | cons y ys ih =>
      obtain ⟨bf1, he1, hP1, hh0, hh1, -⟩ := add_defaultShape hP y
      rcases List.mem_cons.mp hx with hxy | hxs
      · subst hxy
        obtain ⟨f, hef, hPf, hmf⟩ := addList_grow hP1 ys
        refine ⟨f, ?_, hPf, ?_, ?_⟩
        · simp only [addList, he1, RResult.bind_ok, hef]
        · rw [hash0_shape hPf hP]
          exact hmf _ hh0
        · rw [hash1_shape hPf hP]
          exact hmf _ hh1
      · obtain ⟨f, hef, hPf, hf0, hf1⟩ := ih hP1 hxs
        refine ⟨f, ?_, hPf, hf0, hf1⟩
        simp only [addList, he1, RResult.bind_ok, hef]

theorem has_of_bits {f : BloomFilter} (hP : f.defaultShape)
    (h0 : f.bits.bitTest (f.hash0 x) = true) (h1 : f.bits.bitTest (f.hash1 x) = true) :
    f.has x = .ok true := by
  obtain ⟨hbc, hhc, hsz, hwf⟩ := hP
  have hl0 : f.hash0 x < f.bits.size := by
    have := hash0_lt f x (by omega)
    omega
  have hl1 : f.hash1 x < f.bits.size := by
    have := hash1_lt f x (by omega)
    omega
  unfold has
  rw [BitVec.is_set_eq hwf hl0, RResult.bind_ok, h0]
  simp only [Bool.not_true, Bool.false_eq_true, if_false]
  rw [BitVec.is_set_eq hwf hl1, RResult.bind_ok, h1]
  simp only [Bool.not_true, Bool.false_eq_true, if_false]
  rw [if_pos (by omega)]

end BloomFilter

/-! ## Claims C1, C7, C8 -/

/-- C1: for every Bloom filter in a reachable state — bit_cnt 1000, hfn_cnt 2
and bits sized to bit_cnt, which covers the default constructor and everything
built from it by adds — and every finite sequence S of byte strings, adding
each element of S in order succeeds, and afterwards has(x) returns Ok(true)
for every x in S (no false negatives). -/
theorem bloom_no_false_negative (bf : BloomFilter) (hP : bf.defaultShape)
    (S : List (List Nat)) (x : List Nat) (hx : x ∈ S) :
    ∃ f, BloomFilter.addList bf S = .ok f ∧ f.has x = .ok true := by
  obtain ⟨f, he, hPf, h0, h1⟩ := BloomFilter.addList_mem hP hx
  exact ⟨f, he, BloomFilter.has_of_bits hPf h0 h1⟩

theorem bloom_no_false_negative_witness :
    BloomFilter.default.defaultShape ∧ [42] ∈ [[42]] ∧
    ∃ f, BloomFilter.addList BloomFilter.default [[42]] = .ok f ∧ f.has [42] = .ok true :=
  ⟨by decide, by decide,
   bloom_no_false_negative BloomFilter.default (by decide) [[42]] [42] (by decide)⟩

/-- C7 (amended): for every filter with hfn_cnt at least 2 and bit_cnt at least 1
that also satisfies the structural data-model invariant (bits sized to at least
bit_cnt, with a well-formed backing vector), add(x) succeeds and sets exactly the
bits hash0(x), hash1(x) and the Kirsch-Mitzenmacher extension indices, where the
extension index is computed with 64-bit wrapping arithmetic before the final
reduction mod bit_cnt (kmIndex), exactly as in the source; all probed indices lie
in the interval from 0 up to bit_cnt. -/
theorem bloom_add_sets_probe_bits (bf : BloomFilter) (x : List Nat)
    (hh : 2 ≤ bf.hfn_cnt) (hb : 1 ≤ bf.bit_cnt)
    (hinv : bf.bit_cnt ≤ bf.bits.size) (hwf : bf.bits.wf) :
    ∃ f, bf.add x = .ok f ∧
      bf.hash0 x < bf.bit_cnt ∧ bf.hash1 x < bf.bit_cnt ∧
      (∀ i, 3 ≤ i → i ≤ bf.hfn_cnt →
        bf.kmIndex (bf.hash0 x) (bf.hash1 x) i < bf.bit_cnt) ∧
      ∀ j, f.bits.bitTest j = true ↔
        (bf.bits.bitTest j = true ∨ j = bf.hash0 x ∨ j = bf.hash1 x ∨
         ∃ i, 3 ≤ i ∧ i ≤ bf.hfn_cnt ∧
           j = bf.kmIndex (bf.hash0 x) (bf.hash1 x) i) := by
  obtain ⟨f, he, -, -, -, -, hbit⟩ := BloomFilter.add_chr bf x hb hinv hwf
  exact ⟨f, he, BloomFilter.hash0_lt bf x hb, BloomFilter.hash1_lt bf x hb,
    fun i _ _ => BloomFilter.kmIndex_lt bf _ _ i hb, hbit⟩

theorem bloom_add_sets_probe_bits_witness :
    (2 ≤ BloomFilter.default.hfn_cnt ∧ 1 ≤ BloomFilter.default.bit_cnt ∧
     BloomFilter.default.bit_cnt ≤ BloomFilter.default.bits.size ∧
     BloomFilter.default.bits.wf) ∧
    ∃ f, BloomFilter.default.add [1] = .ok f ∧
      BloomFilter.default.hash0 [1] < BloomFilter.default.bit_cnt ∧
      BloomFilter.default.hash1 [1] < BloomFilter.default.bit_cnt ∧
      (∀ i, 3 ≤ i → i ≤ BloomFilter.default.hfn_cnt →
        BloomFilter.default.kmIndex (BloomFilter.default.hash0 [1])
          (BloomFilter.default.hash1 [1]) i < BloomFilter.default.bit_cnt) ∧
      ∀ j, f.bits.bitTest j = true ↔
        (BloomFilter.default.bits.bitTest j = true ∨
         j = BloomFilter.default.hash0 [1] ∨ j = BloomFilter.default.hash1 [1] ∨
         ∃ i, 3 ≤ i ∧ i ≤ BloomFilter.default.hfn_cnt ∧
           j = BloomFilter.default.kmIndex (BloomFilter.default.hash0 [1])
             (BloomFilter.default.hash1 [1]) i) :=
  ⟨⟨by decide, by decide, by decide, by decide⟩,
   bloom_add_sets_probe_bits BloomFilter.default [1]
     (by decide) (by decide) (by decide) (by decide)⟩

/-- C7 (counterexample to the claim as stated): a filter with hfn_cnt = 2 and
bit_cnt = 1 whose bit vector is smaller than bit_cnt satisfies all the stated
hypotheses, yet add returns an error and sets none of the claimed bits, because
the claim omits the data-model invariant that bits is sized to at least bit_cnt. -/
theorem bloom_add_sets_probe_bits_cex :
    2 ≤ undersizedFilter.hfn_cnt ∧ 1 ≤ undersizedFilter.bit_cnt ∧
    undersizedFilter.add [] = .err := by
  decide

/-- C8: for a well-formed BitVec, set(i) and is_set(i) return an error exactly
when i is at least the logical size; for i below the size, set(i) succeeds, the
following is_set(i) returns Ok(true), and every other in-range index j keeps the
is_set result it had before. -/
theorem bitvec_set_round_trip (bv : BitVec) (hwf : bv.wf) (i : Nat) :
    (bv.size ≤ i → bv.set i = .err ∧ bv.is_set i = .err) ∧
    (i < bv.size → ∃ bv2, bv.set i = .ok bv2 ∧ bv2.is_set i = .ok true ∧
      ∀ j, j < bv.size → j ≠ i → bv2.is_set j = bv.is_set j) := by
  constructor
  · intro hge
    exact ⟨BitVec.set_oob bv hge, BitVec.is_set_oob bv hge⟩
  · intro hlt
    refine ⟨bv.setResult i, BitVec.set_eq hwf hlt, ?_, ?_⟩
    · rw [BitVec.is_set_eq (BitVec.setResult_wf hwf i)
        (show i < (bv.setResult i).size from hlt)]
      rw [BitVec.bitTest_setResult hwf hlt i]
      simp
    · intro j hj hne
      rw [BitVec.is_set_eq (BitVec.setResult_wf hwf i)
          (show j < (bv.setResult i).size from hj),
        BitVec.is_set_eq hwf hj, BitVec.bitTest_setResult hwf hlt j]
      simp [hne]

theorem bitvec_set_round_trip_witness :
    (BitVec.with_capacity 10).wf ∧
    (((BitVec.with_capacity 10).size ≤ 3 →
        (BitVec.with_capacity 10).set 3 = .err ∧
        (BitVec.with_capacity 10).is_set 3 = .err) ∧
     (3 < (BitVec.with_capacity 10).size →
        ∃ bv2, (BitVec.with_capacity 10).set 3 = .ok bv2 ∧
          bv2.is_set 3 = .ok true ∧
          ∀ j, j < (BitVec.with_capacity 10).size → j ≠ 3 →
            bv2.is_set j = (BitVec.with_capacity 10).is_set j)) :=
  ⟨by decide, bitvec_set_round_trip (BitVec.with_capacity 10) (by decide) 3⟩

namespace Registry

theorem get_none_not_contains {T : Type} {r : Registry T} (hwf : r.wf) {id : List Nat}
    (h : r.get id = .ok none) : assocFind r.items_index id = none := by
  unfold get get_idx at h
  rcases hf : assocFind r.items_index id with _ | idx
  · rfl
  · exfalso
    rcases hg : r.items[idx]? with _ | x <;> simp [hf, hg] at h

end Registry

theorem wordsBytes_length (ws : List Nat) : (wordsBytes ws).length = 8 * ws.length := by
  induction ws with
  | nil => rfl
  | cons w rest ih =>
      have hb : wordsBytes (w :: rest) = toLE8 w ++ wordsBytes rest := rfl
      rw [hb, List.length_append, toLE8_length, ih, List.length_cons]
      omega

theorem deserialize_vec_usize_wordsBytes {ws : List Nat} (h : ∀ w ∈ ws, w < U64) :
    deserialize_vec_usize (wordsBytes ws) = .ok ws := by
  induction ws with
  | nil => rfl
  | cons w rest ih =>
      have hw : w < U64 := h w (by simp)
      have hb : wordsBytes (w :: rest) =
          w % 256 :: w / 2 ^ 8 % 256 :: w / 2 ^ 16 % 256 :: w / 2 ^ 24 % 256 ::
          w / 2 ^ 32 % 256 :: w / 2 ^ 40 % 256 :: w / 2 ^ 48 % 256 :: w / 2 ^ 56 % 256 ::
          wordsBytes rest := rfl
      rw [hb]
      simp only [deserialize_vec_usize, ih (fun u hu => h u (by simp [hu])), RResult.bind_ok]
      rw [show fromLEBytes [w % 256, w / 2 ^ 8 % 256, w / 2 ^ 16 % 256, w / 2 ^ 24 % 256,
          w / 2 ^ 32 % 256, w / 2 ^ 40 % 256, w / 2 ^ 48 % 256, w / 2 ^ 56 % 256] = w
        from fromLEBytes_toLE8 w hw]

theorem bitvec_deserialize_serialize {bv : BitVec} (h : bv.serWF) :
    BitVec.deserialize bv.serialize.val = .ok bv := by
  obtain ⟨hsz, hws, -⟩ := h
  have hval : bv.serialize.val = toLE8 bv.size ++ wordsBytes bv.words := rfl
  have hlen : bv.serialize.val.length = 8 + 8 * bv.words.length := by
    rw [hval]
    simp only [List.length_append, toLE8_length, wordsBytes_length]
  unfold BitVec.deserialize
  rw [if_neg (by omega), hval, List.drop_left' (toLE8_length bv.size),
    deserialize_vec_usize_wordsBytes hws]
  unfold deserialize_usize
  rw [if_neg (by rw [← hval, hlen]; omega), List.take_left' (toLE8_length bv.size),
    fromLEBytes_toLE8 bv.size hsz]
  rfl

theorem desertlv_serTLVBytes {t : SerTLV} (hlen : t.val.length < U64) (htag : t.srl_type ≤ 3) :
    DeserTLV.new (serTLVBytes t) = .ok (t.srl_type, t.val) := by
  have hb : serTLVBytes t = t.srl_type :: (toLE8 t.val.length ++ t.val) := rfl
  have hl : (serTLVBytes t).length = 9 + t.val.length := by
    rw [hb]
    simp only [List.length_cons, List.length_append, toLE8_length]
    omega
  unfold DeserTLV.new
  rw [hb]
  rw [show (t.srl_type :: (toLE8 t.val.length ++ t.val)).length = 9 + t.val.length from hl]
  rw [if_neg (by omega)]
  simp only
  rw [if_neg (by omega), List.take_left' (toLE8_length _), fromLEBytes_toLE8 _ hlen,
    if_neg (by omega), List.drop_left' (toLE8_length _), List.take_length]

theorem bfs_serialize_val (bfs : BloomFilterStructure) :
    bfs.serialize.val = bfs.id :: bfs.dbid :: bfs.inner.hfn_cnt % 256 ::
      (toLE8 bfs.inner.bit_cnt ++ serTLVBytes bfs.inner.bits.serialize) := rfl

theorem bfs_deserialize_serialize {bfs : BloomFilterStructure} (h : bfs.serWF) :
    BloomFilterStructure.deserialize bfs.serialize.val =
      .ok { dbid := bfs.dbid, id := bfs.id,
            inner := { hfn_cnt := 2, bit_cnt := bfs.inner.bit_cnt,
                       bits := bfs.inner.bits } } := by
  obtain ⟨hid, hdbid, hbc, hbWF⟩ := h
  obtain ⟨hb1, hb2, hwl⟩ := hbWF
  have hbvlen : bfs.inner.bits.serialize.val.length =
      8 + 8 * bfs.inner.bits.words.length := by
    simp only [BitVec.serialize, List.length_append, toLE8_length, wordsBytes_length]
  have hstlen : (serTLVBytes bfs.inner.bits.serialize).length =
      9 + (8 + 8 * bfs.inner.bits.words.length) := by
    simp only [serTLVBytes, List.length_cons, List.length_append, toLE8_length, hbvlen]
    omega
  have hlen : bfs.serialize.val.length =
      11 + (9 + (8 + 8 * bfs.inner.bits.words.length)) := by
    rw [bfs_serialize_val]
    simp only [List.length_cons, List.length_append, toLE8_length, hstlen]
    omega
  have hdrop11 : bfs.serialize.val.drop 11 = serTLVBytes bfs.inner.bits.serialize := by
    rw [bfs_serialize_val]
    show (toLE8 bfs.inner.bit_cnt ++ serTLVBytes bfs.inner.bits.serialize).drop 8 = _
    rw [List.drop_left' (toLE8_length _)]
  have hdrop3 : bfs.serialize.val.drop 3 =
      toLE8 bfs.inner.bit_cnt ++ serTLVBytes bfs.inner.bits.serialize := by
    rw [bfs_serialize_val]
    rfl
  have hvallt : bfs.inner.bits.serialize.val.length < U64 := by
    rw [hbvlen]
    have : (2:Nat) ^ 32 < 2 ^ 64 := by norm_num
    simp only [U64]
    omega
  unfold BloomFilterStructure.deserialize
  rw [if_neg (by omega), hdrop11, desertlv_serTLVBytes hvallt (by norm_num [BitVec.serialize]),
    RResult.bind_ok]
  unfold deserialize_usize
  rw [if_neg (by rw [List.length_drop]; omega), hdrop3, List.take_left' (toLE8_length _),
    fromLEBytes_toLE8 _ hbc, RResult.bind_ok,
    bitvec_deserialize_serialize ⟨hb1, hb2, hwl⟩, RResult.bind_ok]
  rfl

/-- C3 (amended): TLV round trips hold structurally for BitVec (including the
outer TLV frame); for BloomFilterStructure the round trip restores id, dbid,
bit_cnt and the nested bit-vector TLV but always sets hfn_cnt to 2, so the
result equals the original exactly when its hfn_cnt was 2; for Database only
the id is persisted and the filter registry comes back blank. -/
theorem tlv_round_trip :
    (∀ bv : BitVec, bv.serWF →
      DeserTLV.new (serTLVBytes bv.serialize) = .ok (3, bv.serialize.val) ∧
      BitVec.deserialize bv.serialize.val = .ok bv) ∧
    (∀ bfs : BloomFilterStructure, bfs.serWF →
      BloomFilterStructure.deserialize bfs.serialize.val =
        .ok { dbid := bfs.dbid, id := bfs.id,
              inner := { hfn_cnt := 2, bit_cnt := bfs.inner.bit_cnt,
                         bits := bfs.inner.bits } } ∧
      (bfs.inner.hfn_cnt = 2 →
        BloomFilterStructure.deserialize bfs.serialize.val = .ok bfs)) ∧
    (∀ db : Database, Database.deserialize db.serialize.val = .ok (Database.new db.id)) := by
  refine ⟨fun bv h => ⟨?_, bitvec_deserialize_serialize h⟩, fun bfs h => ⟨?_, ?_⟩, fun db => rfl⟩
  · apply desertlv_serTLVBytes
    · obtain ⟨-, -, hwl⟩ := h
      have hbvlen : bv.serialize.val.length = 8 + 8 * bv.words.length := by
        simp only [BitVec.serialize, List.length_append, toLE8_length, wordsBytes_length]
      rw [hbvlen]
      have : (2:Nat) ^ 32 < 2 ^ 64 := by norm_num
      simp only [U64]
      omega
    · norm_num [BitVec.serialize]
  · exact bfs_deserialize_serialize h
  · intro h2
    rw [bfs_deserialize_serialize h, ← h2]

/-- C3 (counterexample to the claim as stated): serializing and deserializing a
BloomFilterStructure with hfn_cnt = 3 yields hfn_cnt = 2, because the
deserializer hard-codes hfn_cnt, so the object is not structurally restored. -/
theorem tlv_round_trip_cex :
    BloomFilterStructure.deserialize hfn3Filter.serialize.val =
      .ok { dbid := 0, id := 0,
            inner := { bits := BitVec.with_capacity 10, hfn_cnt := 2, bit_cnt := 10 } } ∧
    BloomFilterStructure.deserialize hfn3Filter.serialize.val ≠ .ok hfn3Filter := by
  decide

/-! ## Claims C4, C5, C9 -/

/-- C4 (failing input): AddBatch over the two-byte payload [5, 1] declares an
LV of length 5 with only one byte remaining; LV::new slices buf[1..=5] out of
a two-byte buffer, which is an out-of-bounds panic, not the error response the
specification promises. -/
theorem add_batch_declared_length_panics :
    addBatchLoop (BloomFilterStructure.new_default 0 0) [5, 1] CmdResponseTLV.new
      = .panic := by
  unfold addBatchLoop
  simp [LV.new]

/-- C9 (counterexample to the claim as stated): an LV with length byte 0 and at
least one further byte decodes successfully to an empty value rather than
failing, and a NewBloomFilter payload carrying such an LV makes the decoder
panic (indexing byte zero of the empty LV value) rather than return an error. -/
theorem lv_zero_length_cex :
    LV.new [0, 9] = .ok [] ∧ decode_db_cmd 0 [1, 0, 9] = .panic := by
  decide

/-- C9 (amended): an LV decode never requires its length byte to be at least 1;
with a length byte of 0 and at least two bytes in the buffer it succeeds with
an empty value, while a buffer of fewer than two bytes is an EOF error; a
NewBloomFilter payload whose LV has length byte 0 panics on the empty value
instead of yielding an error. -/
theorem lv_zero_length :
    (∀ b rest, LV.new (0 :: b :: rest) = .ok []) ∧
    (∀ b, LV.new [b] = .err) ∧
    (∀ d b rest, decode_db_cmd 0 (d :: 0 :: b :: rest) = .panic) := by
  have hlv0 : ∀ (b : Nat) (rest : List Nat), LV.new (0 :: b :: rest) = .ok [] := by
    intro b rest
    show (if 0 + 1 > (0 :: b :: rest).length then RResult.panic
        else RResult.ok ((b :: rest).take 0)) = RResult.ok []
    rw [if_neg (by simp)]
    rfl
  refine ⟨hlv0, fun b => rfl, fun d b rest => ?_⟩
  unfold decode_db_cmd
  rw [if_neg (by simp)]
  rw [show (d :: 0 :: b :: rest).drop 1 = 0 :: b :: rest from rfl, hlv0, RResult.bind_ok]

/-- C5: for a database whose filter registry satisfies the registry invariant,
NewBloomFilter on an existing id answers Error and leaves the registry
untouched; on a fresh id it appends a filter with the defaults (bit_cnt 1000,
hfn_cnt 2) under that id and the response keeps its Success status. -/
theorem new_bloom_filter_create (db : Database) (bf_id : Nat) (hwf : db.bf_registry.wf) :
    (∀ x, db.bf_registry.get [bf_id] = .ok (some x) →
      newBloomFilterExecute { bf_id := bf_id } db CmdResponseTLV.new =
        .ok (db, { rc := .error, val := [] })) ∧
    (db.bf_registry.get [bf_id] = .ok none →
      ∃ reg2, newBloomFilterExecute { bf_id := bf_id } db CmdResponseTLV.new =
        .ok ({ db with bf_registry := reg2 }, CmdResponseTLV.new) ∧
        reg2.items = db.bf_registry.items ++
          [BloomFilterStructure.new_default bf_id db.id] ∧
        reg2.get [bf_id] = .ok (some (BloomFilterStructure.new_default bf_id db.id)) ∧
        (BloomFilterStructure.new_default bf_id db.id).inner.bit_cnt = 1000 ∧
        (BloomFilterStructure.new_default bf_id db.id).inner.hfn_cnt = 2) := by
  constructor
  · intro x hx
    unfold newBloomFilterExecute
    rw [hx]
    rfl
  · intro hn
    have hnc := Registry.get_none_not_contains hwf hn
    unfold newBloomFilterExecute
    rw [hn, RResult.bind_ok]
    simp only
    unfold Registry.add
    rw [if_neg (by rw [hnc]; simp)]
    refine ⟨_, rfl, rfl, ?_, rfl, rfl⟩
    unfold Registry.get Registry.get_idx
    simp [assocFind, List.getElem?_concat_length]

theorem new_bloom_filter_create_witness :
    (Database.new 5).bf_registry.wf ∧
    ((∀ x, (Database.new 5).bf_registry.get [1] = .ok (some x) →
      newBloomFilterExecute { bf_id := 1 } (Database.new 5) CmdResponseTLV.new =
        .ok (Database.new 5, { rc := .error, val := [] })) ∧
    ((Database.new 5).bf_registry.get [1] = .ok none →
      ∃ reg2, newBloomFilterExecute { bf_id := 1 } (Database.new 5) CmdResponseTLV.new =
        .ok ({ Database.new 5 with bf_registry := reg2 }, CmdResponseTLV.new) ∧
        reg2.items = (Database.new 5).bf_registry.items ++
          [BloomFilterStructure.new_default 1 (Database.new 5).id] ∧
        reg2.get [1] = .ok (some (BloomFilterStructure.new_default 1 (Database.new 5).id)) ∧
        (BloomFilterStructure.new_default 1 (Database.new 5).id).inner.bit_cnt = 1000 ∧
        (BloomFilterStructure.new_default 1 (Database.new 5).id).inner.hfn_cnt = 2)) :=
  ⟨by decide, new_bloom_filter_create (Database.new 5) 1 (by decide)⟩

/-- C2 (failing input): the successful NewBloomFilter write appends only the
3-byte value field [0,1,1] to the WAL; on replay that record is re-framed as a
CmdTLV, which needs at least nine bytes, so replay aborts with an EOF error
and the cleared state stays empty instead of being rebuilt — the claimed
replay equivalence fails for the very first reachable write command. -/
theorem wal_replay_reframe_bug :
    serverStep 8 none c2S0 c2Frame = .ok (c2S1, CmdResponseTLV.new) ∧
    WriteAheadLog.replay 8 none c2S1.clear_state = (.err, c2S1.clear_state) ∧
    c2S1.clear_state.db_registry.items = [] := by
  decide

/-- Refinement of the interleaved child-TLV walk of Ctl::deserialize by the
layered parse-then-apply decoding: a successful walk parses the whole region
and applies exactly its entries. -/
theorem deserLoop_parse :
    ∀ (n : Nat) (rest : List Nat), rest.length ≤ n → ∀ (reg reg2 : Registry Database),
      deserLoop reg rest = .ok reg2 →
      ∃ tlvs, parseTLVs rest = some tlvs ∧ applyAllEntries reg tlvs = .ok reg2 := by
  intro n
  induction n with
  | zero =>
      intro rest hlen reg reg2 hd
      have hr : rest.length = 0 := by omega
      unfold deserLoop at hd
      rw [dif_pos hr] at hd
      cases hd
      refine ⟨[], ?_, rfl⟩
      unfold parseTLVs
      rw [dif_pos hr]
  | succ n ih =>
      intro rest hlen reg reg2 hd
      by_cases hr : rest.length = 0
      · unfold deserLoop at hd
        rw [dif_pos hr] at hd
        cases hd
        refine ⟨[], ?_, rfl⟩
        unfold parseTLVs
        rw [dif_pos hr]
      · unfold deserLoop at hd
        rw [dif_neg hr] at hd
        rcases he : DeserTLV.new rest with tv | _ | _
        · rw [he] at hd
          simp only at hd
          rcases ha : applyEntry reg tv with reg1 | _ | _
          · rw [ha, RResult.bind_ok] at hd
            obtain ⟨tlvs, hp, happ⟩ :=
              ih (rest.drop (9 + tv.2.length)) (by simp only [List.length_drop]; omega)
                reg1 reg2 hd
            refine ⟨tv :: tlvs, ?_, ?_⟩
            · unfold parseTLVs
              rw [dif_neg hr, he]
              show (parseTLVs (rest.drop (9 + tv.2.length))).map (fun ts => tv :: ts) =
                some (tv :: tlvs)
              rw [hp]
              rfl
            · simp only [applyAllEntries]
              rw [ha, RResult.bind_ok]
              exact happ
          · rw [ha] at hd
            cases hd
          · rw [ha] at hd
            cases hd
        · rw [he] at hd
          cases hd
        · rw [he] at hd
          cases hd

theorem init_blank {c : Ctl} (hreg : c.db_registry = Registry.new_blank Database) :
    c.init = (.ok, { c with curr_db := 0, db_registry := defaultRegistry }) := by
  unfold Ctl.init
  rw [hreg]
  rfl

/-- C6 (amended): on a controller whose registry is blank and whose WAL is
empty (the startup situation), load_from_storage behaves as follows: a read
failure initializes the default database 0 and reports an error; an empty
snapshot file initializes the default database 0 and succeeds; a non-empty
snapshot that loads successfully either had a zero num_dbs byte (read at
offset 9), leaving exactly the default database, or its child-TLV region
parses into a list of TLVs whose in-order application to a blank registry is
exactly the final registry. -/
theorem load_from_storage_invariant (fuel : Nat) (c : Ctl) (file : Option (List Nat))
    (hreg : c.db_registry = Registry.new_blank Database) (hwal : c.wal = []) :
    (file = none →
      Ctl.load_from_storage (fuel + 1) file c =
        (.err, { c with curr_db := 0, db_registry := defaultRegistry })) ∧
    (file = some [] →
      Ctl.load_from_storage (fuel + 1) file c =
        (.ok, { c with curr_db := 0, db_registry := defaultRegistry })) ∧
    (∀ buf c2, file = some buf → buf ≠ [] →
      Ctl.load_from_storage (fuel + 1) file c = (.ok, c2) →
      ((buf.get? 9 = some 0 ∧ c2.db_registry.items = [Database.new 0]) ∨
       (∃ tlvs, parseTLVs (buf.drop 10) = some tlvs ∧
         applyAllEntries (Registry.new_blank Database) tlvs = .ok c2.db_registry))) := by
  refine ⟨?_, ?_, ?_⟩
  · intro hf
    subst hf
    unfold Ctl.load_from_storage loadWith
    rw [init_blank hreg]
  · intro hf
    subst hf
    unfold Ctl.load_from_storage loadWith
    exact init_blank hreg
  · intro buf c2 hf hne hload
    subst hf
    rcases buf with _ | ⟨b, bs⟩
    · exact absurd rfl hne
    · have hcc : c.clear_state.db_registry = Registry.new_blank Database := rfl
      have hload2 : (match (c.clear_state).deserialize (b :: bs) with
          | (RStatus.ok, c3) => replayWith (ctlHandler (some (b :: bs)) (fuel + 1)) c3
          | (s, c3) => (s, c3)) = (RStatus.ok, c2) := hload
      have hdesEq : (c.clear_state).deserialize (b :: bs) =
          (match (b :: bs).get? 9 with
           | none => (RStatus.panic, c.clear_state)
           | some 0 => (c.clear_state).init
           | some _ =>
               match deserLoop (c.clear_state).db_registry ((b :: bs).drop 10) with
               | .ok reg => (RStatus.ok, { c.clear_state with db_registry := reg })
               | .err => (RStatus.err, c.clear_state)
               | .panic => (RStatus.panic, c.clear_state)) := by
        unfold Ctl.deserialize
        rw [if_neg (by simp)]
      rcases hg : (b :: bs).get? 9 with _ | k
      · rw [hdesEq, hg] at hload2
        simp at hload2
      · rcases k with _ | k
        · rw [hdesEq, hg, init_blank hcc] at hload2
          have hrep : replayWith (ctlHandler (some (b :: bs)) (fuel + 1))
              ({ c.clear_state with curr_db := 0, db_registry := defaultRegistry }) =
              (.ok, { c.clear_state with curr_db := 0, db_registry := defaultRegistry }) := by
            unfold replayWith
            rw [show ({ c.clear_state with curr_db := 0, db_registry := defaultRegistry } : Ctl).wal = [] from hwal]
            rfl
          have hload3 : replayWith (ctlHandler (some (b :: bs)) (fuel + 1))
              ({ c.clear_state with curr_db := 0, db_registry := defaultRegistry }) =
              (RStatus.ok, c2) := hload2
          rw [hrep] at hload3
          have hc2 : c2 = { c.clear_state with curr_db := 0, db_registry := defaultRegistry } := by
            have h5 := congrArg Prod.snd hload3
            simp at h5
            exact h5.symm
          subst hc2
          exact Or.inl ⟨rfl, rfl⟩
        · rcases hdl : deserLoop (c.clear_state).db_registry ((b :: bs).drop 10)
            with reg | _ | _
          · rw [hdesEq, hg, hdl] at hload2
            have hrep : replayWith (ctlHandler (some (b :: bs)) (fuel + 1))
                ({ c.clear_state with db_registry := reg }) =
                (.ok, { c.clear_state with db_registry := reg }) := by
              unfold replayWith
              rw [show ({ c.clear_state with db_registry := reg } : Ctl).wal = [] from hwal]
              rfl
            have hload3 : replayWith (ctlHandler (some (b :: bs)) (fuel + 1))
                ({ c.clear_state with db_registry := reg }) = (RStatus.ok, c2) := hload2
            rw [hrep] at hload3
            have hc2 : c2 = { c.clear_state with db_registry := reg } := by
              have := congrArg Prod.snd hload3
              simp at this
              exact this.symm
            subst hc2
            refine Or.inr ?_
            rw [hcc] at hdl
            obtain ⟨tlvs, hp, happ⟩ :=
              deserLoop_parse ((b :: bs).drop 10).length _ le_rfl _ _ hdl
            exact ⟨tlvs, hp, happ⟩
          · rw [hdesEq, hg, hdl] at hload2
            simp at hload2
          · rw [hdesEq, hg, hdl] at hload2
            simp at hload2

theorem load_from_storage_invariant_witness :
    (Ctl.new_blank.db_registry = Registry.new_blank Database ∧ Ctl.new_blank.wal = []) ∧
    ((none = (none : Option (List Nat)) →
      Ctl.load_from_storage 1 none Ctl.new_blank =
        (.err, { Ctl.new_blank with curr_db := 0, db_registry := defaultRegistry })) ∧
    ((none : Option (List Nat)) = some [] →
      Ctl.load_from_storage 1 none Ctl.new_blank =
        (.ok, { Ctl.new_blank with curr_db := 0, db_registry := defaultRegistry })) ∧
    (∀ buf c2, (none : Option (List Nat)) = some buf → buf ≠ [] →
      Ctl.load_from_storage 1 none Ctl.new_blank = (.ok, c2) →
      ((buf.get? 9 = some 0 ∧ c2.db_registry.items = [Database.new 0]) ∨
       (∃ tlvs, parseTLVs (buf.drop 10) = some tlvs ∧
         applyAllEntries (Registry.new_blank Database) tlvs = .ok c2.db_registry)))) :=
  ⟨⟨rfl, rfl⟩, load_from_storage_invariant 0 Ctl.new_blank none rfl rfl⟩

/-- C6 (counterexample to the claim as stated): calling load_from_storage on a
controller that already holds database 1 while the snapshot file exists but is
empty returns successfully with two databases in the registry, so neither
disjunct of the claimed invariant holds (the snapshot had no contents to apply
verbatim, and the registry is not exactly one default database with id 0). -/
theorem load_from_storage_invariant_cex :
    (Ctl.load_from_storage 1 (some []) c6Cex).1 = .ok ∧
    (Ctl.load_from_storage 1 (some []) c6Cex).2.db_registry.items =
      [Database.new 1, Database.new 0] ∧
    (Ctl.load_from_storage 1 (some []) c6Cex).2.db_registry.items ≠ [Database.new 0] := by
  decide

theorem ctl_deserialize_short {c : Ctl} {buf : List Nat} (hne : buf ≠ [])
    (hlen : buf.length ≤ 9) : Ctl.deserialize c buf = (.panic, c) := by
  have hget : buf.get? 9 = none := by
    rw [List.get?_eq_getElem?, List.getElem?_eq_none]
    omega
  unfold Ctl.deserialize
  rw [if_neg (by simp [List.length_eq_zero, hne]), hget]

/-- C10: Ctl::deserialize reads byte 9 of its buffer with no bounds check, so
for every non-empty snapshot of at most nine bytes both deserialize and
load_from_storage end in a panic (the Rust out-of-bounds index) instead of a
recoverable error; deserialize is therefore total only under the precondition
that the buffer is longer than nine bytes. -/
theorem ctl_deserialize_short_buffer_panics (fuel : Nat) (c : Ctl) (buf : List Nat)
    (hne : buf ≠ []) (hlen : buf.length ≤ 9) :
    Ctl.deserialize c buf = (.panic, c) ∧
    Ctl.load_from_storage (fuel + 1) (some buf) c = (.panic, c.clear_state) := by
  refine ⟨ctl_deserialize_short hne hlen, ?_⟩
  rcases buf with _ | ⟨b, bs⟩
  · exact absurd rfl hne
  · have hd := ctl_deserialize_short (c := c.clear_state) hne hlen
    show (match (c.clear_state).deserialize (b :: bs) with
      | (RStatus.ok, c2) => replayWith (ctlHandler (some (b :: bs)) (fuel + 1)) c2
      | (s, c2) => (s, c2)) = (RStatus.panic, c.clear_state)
    rw [hd]

theorem ctl_deserialize_short_buffer_panics_witness :
    (([1] : List Nat) ≠ [] ∧ ([1] : List Nat).length ≤ 9) ∧
    (Ctl.deserialize Ctl.new_blank [1] = (.panic, Ctl.new_blank) ∧
     Ctl.load_from_storage 1 (some [1]) Ctl.new_blank =
       (.panic, Ctl.new_blank.clear_state)) :=
  ⟨⟨by decide, by decide⟩,
   ctl_deserialize_short_buffer_panics 0 Ctl.new_blank [1] (by decide) (by decide)⟩

theorem tlv_round_trip_witness :
    ((BitVec.with_capacity 10).serWF ∧
      DeserTLV.new (serTLVBytes (BitVec.with_capacity 10).serialize) =
        .ok (3, (BitVec.with_capacity 10).serialize.val) ∧
      BitVec.deserialize (BitVec.with_capacity 10).serialize.val =
        .ok (BitVec.with_capacity 10)) ∧
    (hfn3Filter.serWF ∧
      BloomFilterStructure.deserialize hfn3Filter.serialize.val =
        .ok { dbid := hfn3Filter.dbid, id := hfn3Filter.id,
              inner := { hfn_cnt := 2, bit_cnt := hfn3Filter.inner.bit_cnt,
                         bits := hfn3Filter.inner.bits } }) ∧
    Database.deserialize (Database.new 7).serialize.val = .ok (Database.new 7) :=
  ⟨⟨by decide, tlv_round_trip.1 (BitVec.with_capacity 10) (by decide)⟩,
   ⟨by decide, (tlv_round_trip.2.1 hfn3Filter (by decide)).1⟩,
   tlv_round_trip.2.2 (Database.new 7)⟩

end QStra
